import Mathlib

/-!
# Verification of the go-sam-bridge core against its specification

Shallow embedding of the SAM bridge's protocol and session layers
(`lib/protocol`, `lib/handler`, `lib/session`) as executable Lean
definitions, followed by theorems settling the specification claims.

Go strings are modelled as `List Char`; Go maps as association lists
(`List (k × v)`, first match wins, which coincides with Go maps because the
code only inserts keys it has checked to be absent, and the parser's
overwrite-on-duplicate is modelled by consing the newest binding in front).
Fallible Go functions returning `(T, error)` are modelled with `Except` or
`Option`.
-/

deriving instance DecidableEq for Except

namespace SamBridge

/-- Go strings, modelled as lists of characters. -/
abbrev Str := List Char

/-- `strings.ToUpper` (ASCII behaviour, which is all the bridge relies on). -/
def toUpperStr (s : Str) : Str := s.map Char.toUpper

/-- Characters stripped by `strings.TrimRight(line, "\r\n")`. -/
def isCRLF (c : Char) : Bool := c = '\r' || c = '\n'

/-- `strings.TrimRight(line, "\r\n")`: drop trailing CR/LF characters. -/
def trimRightCRLF (s : Str) : Str := (s.reverse.dropWhile isCRLF).reverse

/-- `strings.Contains(s, "=")` specialised to a single character needle. -/
def containsChar (s : Str) (c : Char) : Bool := s.any (· = c)

/-! ## lib/handler/hello.go: version strings

`isValidVersion`, `parseVersion`, `compareVersions`, `laterVersion` and
`earlierVersion` are translated from `lib/handler/hello.go`.
-/

/-- `strings.Split(v, ".")`: split at every `'.'`, keeping empty pieces. -/
def splitDot : Str → List Str
  | [] => [[]]
  | c :: rest =>
    if c = '.' then [] :: splitDot rest
    else
      match splitDot rest with
      | [] => [[c]]
      | t :: ts => (c :: t) :: ts

/-- Value of a nonempty all-digit string, `none` otherwise. -/
def digitsVal : Str → Option Nat
  | [] => none
  | cs =>
    if cs.all Char.isDigit then
      some (cs.foldl (fun acc c => acc * 10 + (c.toNat - '0'.toNat)) 0)
    else none

/-- `strconv.Atoi`: optional sign followed by at least one digit. -/
def goAtoi : Str → Option Int
  | [] => none
  | '-' :: rest => (digitsVal rest).map (fun n => -(n : Int))
  | '+' :: rest => (digitsVal rest).map (fun n => (n : Int))
  | s => (digitsVal s).map (fun n => (n : Int))

/-- `isValidVersion`: exactly two `.`-separated parts, each `Atoi`-parseable. -/
def isValidVersion (v : Str) : Bool :=
  let parts := splitDot v
  parts.length = 2 && parts.all (fun p => (goAtoi p).isSome)

/-- `parseVersion`: major/minor components, `0` on any parse failure
(Go's `Atoi` yields `0` together with the ignored error). -/
def parseVersion (v : Str) : Int × Int :=
  match splitDot v with
  | [a, b] => ((goAtoi a).getD 0, (goAtoi b).getD 0)
  | _ => (0, 0)

/-- `compareVersions`: `-1`, `0` or `1`, majors first, then minors. -/
def compareVersions (a b : Str) : Int :=
  let (aMaj, aMin) := parseVersion a
  let (bMaj, bMin) := parseVersion b
  if aMaj ≠ bMaj then (if aMaj < bMaj then -1 else 1)
  else if aMin ≠ bMin then (if aMin < bMin then -1 else 1)
  else 0

/-- `laterVersion`: the later of two versions (left biased on ties). -/
def laterVersion (a b : Str) : Str :=
  if compareVersions a b ≥ 0 then a else b

/-- `earlierVersion`: the earlier of two versions (left biased on ties). -/
def earlierVersion (a b : Str) : Str :=
  if compareVersions a b ≤ 0 then a else b

/-- `protocol.SAMVersionMin` from `lib/protocol` ("3.0"). -/
def samVersionMin : Str := "3.0".toList

/-- `protocol.SAMVersionMax` from `lib/protocol` ("3.3"). -/
def samVersionMax : Str := "3.3".toList

/-! ## lib/protocol: Command and Response -/

/-- `protocol.Command` (`lib/protocol/command.go`): parsed SAM command.
The `Options` map is an association list whose first match wins; the parser
conses the newest binding in front, matching Go's overwrite-on-duplicate. -/
structure Command where
  verb : Str
  action : Str
  options : List (Str × Str)
  raw : Str
  deriving Repr, DecidableEq

/-- `Command.Get`: option value, or empty string when absent. -/
def Command.get (c : Command) (key : Str) : Str :=
  (c.options.lookup key).getD []

/-- `Command.GetOrDefault`: option value, or the default when the key is
absent (a present-but-empty value is returned as is). -/
def Command.getOrDefault (c : Command) (key deflt : Str) : Str :=
  (c.options.lookup key).getD deflt

/-- Modelled from the spec: `protocol.Response` (the implementation file
`lib/protocol/response.go` is absent from the sources; this follows the
package README's godoc and the expectations pinned by the response tests).
`options` holds pre-formatted `KEY=VALUE` strings in insertion order. -/
structure Response where
  verb : Str
  action : Str
  options : List Str
  deriving Repr, DecidableEq

/-- Modelled from the spec: `protocol.NewResponse`. -/
def newResponse (verb : Str) : Response := ⟨verb, [], []⟩

/-- Modelled from the spec: `Response.WithAction`. -/
def Response.withAction (r : Response) (a : Str) : Response := { r with action := a }

/-- Modelled from the spec: `Response.WithResult` appends `RESULT=<code>`. -/
def Response.withResult (r : Response) (code : Str) : Response :=
  { r with options := r.options ++ ["RESULT=".toList ++ code] }

/-- Modelled from the spec: `Response.WithVersion` appends `VERSION=<v>`. -/
def Response.withVersion (r : Response) (v : Str) : Response :=
  { r with options := r.options ++ ["VERSION=".toList ++ v] }

/-- Modelled from the spec: `Response.WithMessage` appends `MESSAGE=<msg>`,
quoting the message when it contains a space (per the README and tests). -/
def Response.withMessage (r : Response) (msg : Str) : Response :=
  let quoted := if containsChar msg ' ' then '"' :: msg ++ ['"'] else msg
  { r with options := r.options ++ ["MESSAGE=".toList ++ quoted] }

/-- Join pieces with single spaces. -/
def joinSpace : List Str → Str
  | [] => []
  | [p] => p
  | p :: rest => p ++ ' ' :: joinSpace rest

/-- Modelled from the spec: `Response.String` — verb, optional action and the
options in order, space separated, newline terminated (pinned by the
response tests, e.g. `PONG test data\n`, `HELLO REPLY RESULT=OK VERSION=3.3\n`). -/
def Response.string (r : Response) : Str :=
  joinSpace ([r.verb] ++ (if r.action = [] then [] else [r.action]) ++ r.options) ++ ['\n']

/-- The `RESULT=` code carried by a response, if any (reads the formatted
options back; used only to state theorems about replies). -/
def Response.result (r : Response) : Option Str :=
  (r.options.filterMap (fun o =>
    if "RESULT=".toList.isPrefixOf o then some (o.drop 7) else none)).head?

/-- The `VERSION=` value carried by a response, if any. -/
def Response.version (r : Response) : Option Str :=
  (r.options.filterMap (fun o =>
    if "VERSION=".toList.isPrefixOf o then some (o.drop 8) else none)).head?

/-! ## lib/handler/hello.go: the HELLO handler -/

/-- `handler.HelloConfig`: the server's supported version range and the
authentication switch.  `authFunc` is `none` when no validator is wired
(Go `AuthFunc == nil`). -/
structure HelloConfig where
  minVersion : Str
  maxVersion : Str
  requireAuth : Bool
  authFunc : Option (Str → Str → Bool)

/-- `handler.DefaultHelloConfig`. -/
def defaultHelloConfig : HelloConfig :=
  ⟨samVersionMin, samVersionMax, false, none⟩

/-- The HELLO-relevant slice of `handler.Context`: negotiated version,
authentication flag and the handshake-complete flag. -/
structure HContext where
  version : Str
  authenticated : Bool
  handshakeComplete : Bool
  deriving Repr, DecidableEq

/-- The `MIN` option key. -/
def minKey : Str := "MIN".toList

/-- The `MAX` option key. -/
def maxKey : Str := "MAX".toList

/-- `parseVersionRange` (`lib/handler/hello.go`): extract MIN/MAX with
defaults 3.0/3.3, validate the syntax and the ordering. -/
def parseVersionRange (cmd : Command) : Except Str (Str × Str) :=
  let mn := cmd.getOrDefault minKey samVersionMin
  let mx := cmd.getOrDefault maxKey samVersionMax
  if !isValidVersion mn then .error "invalid MIN version format".toList
  else if !isValidVersion mx then .error "invalid MAX version format".toList
  else if compareVersions mn mx > 0 then
    .error "MIN version cannot be greater than MAX".toList
  else .ok (mn, mx)

/-- `HelloHandler.negotiateVersion`: overlap of client and server ranges;
`none` when the overlap is empty, otherwise the overlap's maximum. -/
def negotiateVersion (cfg : HelloConfig) (clientMin clientMax : Str) : Option Str :=
  let overlapMin := laterVersion clientMin cfg.minVersion
  let overlapMax := earlierVersion clientMax cfg.maxVersion
  if compareVersions overlapMin overlapMax > 0 then none
  else some overlapMax

/-- `HelloHandler.authenticate`: both USER and PASSWORD must be present and
accepted by the configured validator. -/
def authenticate (cfg : HelloConfig) (cmd : Command) : Bool :=
  match cfg.authFunc with
  | none => false
  | some f =>
    let user := cmd.get "USER".toList
    let password := cmd.get "PASSWORD".toList
    if user = [] || password = [] then false
    else f user password

/-- `helloOK`: `HELLO REPLY RESULT=OK VERSION=<v>`. -/
def helloOK (version : Str) : Response :=
  (((newResponse "HELLO".toList).withAction "REPLY".toList).withResult
    "OK".toList).withVersion version

/-- `helloNoVersion`: `HELLO REPLY RESULT=NOVERSION`. -/
def helloNoVersion : Response :=
  ((newResponse "HELLO".toList).withAction "REPLY".toList).withResult
    "NOVERSION".toList

/-- `helloError`: `HELLO REPLY RESULT=I2P_ERROR MESSAGE=<msg>`. -/
def helloError (msg : Str) : Response :=
  (((newResponse "HELLO".toList).withAction "REPLY".toList).withResult
    "I2P_ERROR".toList).withMessage msg

/-- `HelloHandler.Handle` (`lib/handler/hello.go`): reject a second HELLO,
parse the version range, negotiate, authenticate if required, then record
the negotiated version and mark the handshake complete.  The Go handler
returns `(resp, nil)` on every path; the updated context is returned
alongside the response. -/
def helloHandle (cfg : HelloConfig) (ctx : HContext) (cmd : Command) :
    Response × HContext :=
  if ctx.handshakeComplete then
    (helloError "HELLO already completed".toList, ctx)
  else
    match parseVersionRange cmd with
    | .error e => (helloError e, ctx)
    | .ok (clientMin, clientMax) =>
      match negotiateVersion cfg clientMin clientMax with
      | none => (helloNoVersion, ctx)
      | some version =>
        if cfg.requireAuth then
          if !authenticate cfg cmd then (helloError "Authentication failed".toList, ctx)
          else
            (helloOK version,
             { ctx with authenticated := true, version := version, handshakeComplete := true })
        else
          (helloOK version,
           { ctx with version := version, handshakeComplete := true })

/-! ## Helper lemmas about responses -/

theorem isPrefixOf_append_self (l t : Str) : l.isPrefixOf (l ++ t) = true := by
  induction l with
  | nil => simp [List.isPrefixOf]
  | cons c cs ih => simp [List.isPrefixOf, ih]

theorem helloOK_result (v : Str) : (helloOK v).result = some "OK".toList := by
  simp [helloOK, newResponse, Response.withAction, Response.withResult,
    Response.withVersion, Response.result, List.filterMap, isPrefixOf_append_self]

theorem helloOK_version (v : Str) : (helloOK v).version = some v := by
  simp [helloOK, newResponse, Response.withAction, Response.withResult,
    Response.withVersion, Response.version, List.filterMap, isPrefixOf_append_self]

/-! ## Claim theorems: HELLO -/

/-- C1. HELLO version negotiation: for every client range `[MIN, MAX]`
(defaulting to 3.0 and 3.3 when absent) and server range
`[minVersion, maxVersion]`, the handler computes the overlap
`[max(client MIN, server min), min(client MAX, server max)]` under
component-wise major.minor comparison; if the overlap is empty it replies
`RESULT=NOVERSION`, otherwise `RESULT=OK` with `VERSION` equal to the
overlap's maximum, i.e. the smaller of the two MAX bounds. -/
theorem hello_negotiates_overlap
    (cfg : HelloConfig) (ctx : HContext) (cmd : Command)
    (hdone : ctx.handshakeComplete = false)
    (hauth : cfg.requireAuth = false)
    (hmn : isValidVersion (cmd.getOrDefault minKey samVersionMin) = true)
    (hmx : isValidVersion (cmd.getOrDefault maxKey samVersionMax) = true)
    (hrange : compareVersions (cmd.getOrDefault minKey samVersionMin)
        (cmd.getOrDefault maxKey samVersionMax) ≤ 0) :
    (compareVersions
        (laterVersion (cmd.getOrDefault minKey samVersionMin) cfg.minVersion)
        (earlierVersion (cmd.getOrDefault maxKey samVersionMax) cfg.maxVersion) > 0
      → (helloHandle cfg ctx cmd).1 = helloNoVersion
        ∧ (helloHandle cfg ctx cmd).1.result = some "NOVERSION".toList)
    ∧ (compareVersions
        (laterVersion (cmd.getOrDefault minKey samVersionMin) cfg.minVersion)
        (earlierVersion (cmd.getOrDefault maxKey samVersionMax) cfg.maxVersion) ≤ 0
      → (helloHandle cfg ctx cmd).1.result = some "OK".toList
        ∧ (helloHandle cfg ctx cmd).1.version
            = some (earlierVersion (cmd.getOrDefault maxKey samVersionMax)
                cfg.maxVersion)) := by
  have hnotgt : ¬ (compareVersions (cmd.getOrDefault minKey samVersionMin)
      (cmd.getOrDefault maxKey samVersionMax) > 0) := by omega
  have hpvr : parseVersionRange cmd =
      Except.ok (cmd.getOrDefault minKey samVersionMin,
        cmd.getOrDefault maxKey samVersionMax) := by
    simp only [parseVersionRange]
    rw [hmn, hmx]
    simp [hnotgt]
  have key : helloHandle cfg ctx cmd =
      (match negotiateVersion cfg (cmd.getOrDefault minKey samVersionMin)
          (cmd.getOrDefault maxKey samVersionMax) with
       | none => (helloNoVersion, ctx)
       | some v => (helloOK v, { ctx with version := v, handshakeComplete := true })) := by
    unfold helloHandle
    rw [hdone, hpvr]
    cases hneg : negotiateVersion cfg (cmd.getOrDefault minKey samVersionMin)
        (cmd.getOrDefault maxKey samVersionMax) <;>
      simp [hauth, hneg]
  constructor
  · intro hempty
    have hneg : negotiateVersion cfg (cmd.getOrDefault minKey samVersionMin)
        (cmd.getOrDefault maxKey samVersionMax) = none := by
      simp only [negotiateVersion]
      rw [if_pos hempty]
    rw [key, hneg]
    refine ⟨rfl, ?_⟩
    show helloNoVersion.result = some ("NOVERSION".toList)
    decide
  · intro hnonempty
    have hne : ¬ (compareVersions
        (laterVersion (cmd.getOrDefault minKey samVersionMin) cfg.minVersion)
        (earlierVersion (cmd.getOrDefault maxKey samVersionMax) cfg.maxVersion)
        > 0) := by omega
    have hneg : negotiateVersion cfg (cmd.getOrDefault minKey samVersionMin)
        (cmd.getOrDefault maxKey samVersionMax)
        = some (earlierVersion (cmd.getOrDefault maxKey samVersionMax)
            cfg.maxVersion) := by
      simp only [negotiateVersion]
      rw [if_neg hne]
    rw [key, hneg]
    exact ⟨helloOK_result _, helloOK_version _⟩

/-- Witness for `hello_negotiates_overlap`: client range 3.1–3.3 against the
default server range 3.0–3.3 negotiates VERSION=3.3 (spec scenario S1), and
client range 2.0–2.9 yields NOVERSION (spec scenario S2). -/
theorem hello_negotiates_overlap_witness :
    ((⟨[], false, false⟩ : HContext).handshakeComplete = false
      ∧ defaultHelloConfig.requireAuth = false)
    ∧ (helloHandle defaultHelloConfig ⟨[], false, false⟩
        ⟨"HELLO".toList, "VERSION".toList,
          [("MIN".toList, "3.1".toList), ("MAX".toList, "3.3".toList)], []⟩).1.result
        = some "OK".toList
    ∧ (helloHandle defaultHelloConfig ⟨[], false, false⟩
        ⟨"HELLO".toList, "VERSION".toList,
          [("MIN".toList, "3.1".toList), ("MAX".toList, "3.3".toList)], []⟩).1.version
        = some "3.3".toList
    ∧ (helloHandle defaultHelloConfig ⟨[], false, false⟩
        ⟨"HELLO".toList, "VERSION".toList,
          [("MIN".toList, "2.0".toList), ("MAX".toList, "2.9".toList)], []⟩).1
        = helloNoVersion := by
  refine ⟨⟨rfl, rfl⟩, ?_, ?_, ?_⟩
  · exact ((hello_negotiates_overlap defaultHelloConfig ⟨[], false, false⟩
      ⟨"HELLO".toList, "VERSION".toList,
        [("MIN".toList, "3.1".toList), ("MAX".toList, "3.3".toList)], []⟩
      rfl rfl (by decide) (by decide) (by decide)).2 (by decide)).1
  · have := ((hello_negotiates_overlap defaultHelloConfig ⟨[], false, false⟩
      ⟨"HELLO".toList, "VERSION".toList,
        [("MIN".toList, "3.1".toList), ("MAX".toList, "3.3".toList)], []⟩
      rfl rfl (by decide) (by decide) (by decide)).2 (by decide)).2
    simpa using this
  · exact ((hello_negotiates_overlap defaultHelloConfig ⟨[], false, false⟩
      ⟨"HELLO".toList, "VERSION".toList,
        [("MIN".toList, "2.0".toList), ("MAX".toList, "2.9".toList)], []⟩
      rfl rfl (by decide) (by decide) (by decide)).1 (by decide)).1

/-- C8. A second HELLO on a connection whose handshake is already complete
yields a `HELLO REPLY` with `RESULT=I2P_ERROR`, and leaves the negotiated
version, the handshake-complete flag and the authentication state unchanged
(the Go handler returns the reply with a nil error, so the connection is not
closed). -/
theorem hello_second_rejected
    (cfg : HelloConfig) (ctx : HContext) (cmd : Command)
    (hdone : ctx.handshakeComplete = true) :
    (helloHandle cfg ctx cmd).1 = helloError "HELLO already completed".toList
    ∧ (helloHandle cfg ctx cmd).1.result = some "I2P_ERROR".toList
    ∧ (helloHandle cfg ctx cmd).2 = ctx := by
  have h : helloHandle cfg ctx cmd = (helloError "HELLO already completed".toList, ctx) := by
    simp [helloHandle, hdone]
  rw [h]
  refine ⟨rfl, ?_, rfl⟩
  show (helloError ("HELLO already completed".toList)).result = some ("I2P_ERROR".toList)
  decide

/-- Witness for `hello_second_rejected`: a repeated HELLO on a context that
already negotiated 3.3 replies I2P_ERROR and changes nothing. -/
theorem hello_second_rejected_witness :
    (⟨"3.3".toList, true, true⟩ : HContext).handshakeComplete = true
    ∧ ((helloHandle defaultHelloConfig ⟨"3.3".toList, true, true⟩
          ⟨"HELLO".toList, "VERSION".toList, [], []⟩).1.result
        = some "I2P_ERROR".toList
      ∧ (helloHandle defaultHelloConfig ⟨"3.3".toList, true, true⟩
          ⟨"HELLO".toList, "VERSION".toList, [], []⟩).2
        = ⟨"3.3".toList, true, true⟩) :=
  ⟨rfl,
    (hello_second_rejected defaultHelloConfig ⟨"3.3".toList, true, true⟩
      ⟨"HELLO".toList, "VERSION".toList, [], []⟩ rfl).2⟩

/-! ## lib/session/registry.go: the session registry

`session.Registry` keeps two inner tables, `sessions : id → Session` and
`dests : destHash → id`.  A registered session is modelled by its identity
(`id`) and its destination: `none` models a Go `nil` destination, and
`some h` a destination whose `Hash()` method returns `h` (the hash itself is
opaque to the registry).
-/

/-- The registry's view of a `session.Session`: its `ID()` and, when its
`Destination()` is non-nil, the destination's `Hash()`. -/
structure RegSession where
  id : Str
  destHash : Option Str
  deriving Repr, DecidableEq

/-- Errors returned by the registry, from `lib/util`
(`ErrSessionNotFound`, `ErrDuplicateID` mapping to wire code DUPLICATED_ID,
`ErrDuplicateDest` mapping to wire code DUPLICATED_DEST). -/
inductive RegErr where
  | sessionNotFound
  | duplicateID
  | duplicateDest
  deriving Repr, DecidableEq

/-- `session.RegistryImpl`: the two inner tables, as association lists whose
first match wins (Go map semantics; the code only inserts absent keys). -/
structure Registry where
  sessions : List (Str × RegSession)
  dests : List (Str × Str)
  deriving Repr, DecidableEq

/-- `session.NewRegistry`: both tables empty. -/
def newRegistry : Registry := ⟨[], []⟩

/-- `RegistryImpl.Register` (`lib/session/registry.go`): a `nil` session
(modelled as `none`) or an empty ID yields `ErrSessionNotFound`; an existing
ID yields `ErrDuplicateID`; when a destination is set and its hash is
nonempty, an existing hash yields `ErrDuplicateDest`, otherwise the hash
mapping is inserted; finally the session is inserted. -/
def Registry.register (r : Registry) (s : Option RegSession) :
    Registry × Option RegErr :=
  match s with
  | none => (r, some .sessionNotFound)
  | some s =>
    if s.id = [] then (r, some .sessionNotFound)
    else if (r.sessions.lookup s.id).isSome then (r, some .duplicateID)
    else
      match s.destHash with
      | some h =>
        if h ≠ [] then
          if (r.dests.lookup h).isSome then (r, some .duplicateDest)
          else
            ({ sessions := (s.id, s) :: r.sessions, dests := (h, s.id) :: r.dests },
             none)
        else ({ r with sessions := (s.id, s) :: r.sessions }, none)
      | none => ({ r with sessions := (s.id, s) :: r.sessions }, none)

/-- `RegistryImpl.Unregister` (`lib/session/registry.go`): looks the session
up by ID; absent IDs yield `ErrSessionNotFound`; otherwise the destination
mapping (when the destination is set with a nonempty hash) and the session
entry are removed. -/
def Registry.unregister (r : Registry) (id : Str) : Registry × Option RegErr :=
  match r.sessions.lookup id with
  | none => (r, some .sessionNotFound)
  | some s =>
    let r1 :=
      match s.destHash with
      | some h =>
        if h ≠ [] then { r with dests := r.dests.filter (fun p => p.1 ≠ h) } else r
      | none => r
    ({ r1 with sessions := r1.sessions.filter (fun p => p.1 ≠ id) }, none)

/-- `RegistryImpl.Get`: session by ID, or `none`. -/
def Registry.get (r : Registry) (id : Str) : Option RegSession :=
  r.sessions.lookup id

/-- `RegistryImpl.GetByDestination`: session by destination hash, or `none`. -/
def Registry.getByDestination (r : Registry) (destHash : Str) : Option RegSession :=
  match r.dests.lookup destHash with
  | some id => r.sessions.lookup id
  | none => none

/-- `RegistryImpl.Count`: number of registered sessions. -/
def Registry.count (r : Registry) : Nat := r.sessions.length

/-- Lookup misses every key removed by a key-filter. -/
theorem lookup_filter_ne {β : Type}
    (l : List (Str × β)) (k : Str) :
    (l.filter (fun p => p.1 ≠ k)).lookup k = none := by
  induction l with
  | nil => rfl
  | cons p rest ih =>
    by_cases h : p.1 = k
    · rw [List.filter_cons, if_neg (by simp [h])]
      exact ih
    · rw [List.filter_cons, if_pos (by simp [h])]
      have hk : (k == p.1) = false := beq_eq_false_iff_ne.mpr (fun e => h e.symm)
      simp only [List.lookup, hk]
      exact ih

/-! ## Claim theorems: registry -/

/-- C2. `Registry.Register` with a session `s` (nonempty ID, destination set
with a nonempty hash): an already-registered ID yields the duplicate-ID
error (wire `DUPLICATED_ID`); a fresh ID whose destination hash is already
registered yields the duplicate-destination error (wire `DUPLICATED_DEST`);
otherwise the session is inserted into both tables and no error is
returned. -/
theorem register_uniqueness
    (r : Registry) (s : RegSession) (h : Str)
    (hid : s.id ≠ [])
    (hdest : s.destHash = some h) (hh : h ≠ []) :
    ((r.sessions.lookup s.id).isSome →
      r.register (some s) = (r, some .duplicateID))
    ∧ ((r.sessions.lookup s.id).isSome = false →
        (r.dests.lookup h).isSome →
        r.register (some s) = (r, some .duplicateDest))
    ∧ ((r.sessions.lookup s.id).isSome = false →
        (r.dests.lookup h).isSome = false →
        r.register (some s) =
          ({ sessions := (s.id, s) :: r.sessions, dests := (h, s.id) :: r.dests },
            none)) := by
  refine ⟨?_, ?_, ?_⟩
  · intro hdup
    simp [Registry.register, hid, hdup]
  · intro hfresh hdup
    simp [Registry.register, hid, hfresh, hdest, hh, hdup]
  · intro hfresh hfresh2
    simp [Registry.register, hid, hfresh, hdest, hh, hfresh2]

/-- Witness for `register_uniqueness`: concrete runs of all three branches.
Session `a` (hash `h1`) registers into both tables; re-registering ID `a`
fails with the duplicate-ID error; registering fresh ID `b` with hash `h1`
fails with the duplicate-destination error. -/
theorem register_uniqueness_witness :
    (("a".toList : Str) ≠ [] ∧ ("h1".toList : Str) ≠ [])
    ∧ newRegistry.register (some ⟨"a".toList, some "h1".toList⟩)
        = (⟨[("a".toList, ⟨"a".toList, some "h1".toList⟩)],
            [("h1".toList, "a".toList)]⟩, none)
    ∧ (⟨[("a".toList, ⟨"a".toList, some "h1".toList⟩)],
        [("h1".toList, "a".toList)]⟩ : Registry).register
          (some ⟨"a".toList, some "h2".toList⟩)
        = (⟨[("a".toList, ⟨"a".toList, some "h1".toList⟩)],
            [("h1".toList, "a".toList)]⟩, some .duplicateID)
    ∧ (⟨[("a".toList, ⟨"a".toList, some "h1".toList⟩)],
        [("h1".toList, "a".toList)]⟩ : Registry).register
          (some ⟨"b".toList, some "h1".toList⟩)
        = (⟨[("a".toList, ⟨"a".toList, some "h1".toList⟩)],
            [("h1".toList, "a".toList)]⟩, some .duplicateDest) := by
  refine ⟨⟨by decide, by decide⟩, ?_, ?_, ?_⟩
  · exact (register_uniqueness newRegistry ⟨"a".toList, some "h1".toList⟩
      "h1".toList (by decide) rfl (by decide)).2.2 (by decide) (by decide)
  · exact (register_uniqueness _ ⟨"a".toList, some "h2".toList⟩
      "h2".toList (by decide) rfl (by decide)).1 (by decide)
  · exact (register_uniqueness _ ⟨"b".toList, some "h1".toList⟩
      "h1".toList (by decide) rfl (by decide)).2.1 (by decide) (by decide)

/-- C10. Registration is atomic on failure: whenever `Register` returns an
error (nil session, empty ID, duplicate ID or duplicate destination hash),
the registry value is unchanged, so `Get`, `GetByDestination` and `Count`
observe exactly the prior state. -/
theorem register_atomic_on_failure
    (r : Registry) (s : Option RegSession)
    (herr : (r.register s).2 ≠ none) :
    (r.register s).1 = r
    ∧ (∀ id, ((r.register s).1).get id = r.get id)
    ∧ (∀ h, ((r.register s).1).getByDestination h = r.getByDestination h)
    ∧ ((r.register s).1).count = r.count := by
  have hstate : (r.register s).1 = r := by
    match s with
    | none => rfl
    | some s =>
      by_cases hid : s.id = []
      · simp [Registry.register, hid]
      · by_cases hdup : (r.sessions.lookup s.id).isSome
        · simp [Registry.register, hid, hdup]
        · match hdh : s.destHash with
          | none =>
            exfalso
            apply herr
            simp [Registry.register, hid, hdup, hdh]
          | some h =>
            by_cases hh : h = []
            · exfalso
              apply herr
              simp [Registry.register, hid, hdup, hdh, hh]
            · by_cases hdd : (r.dests.lookup h).isSome
              · simp [Registry.register, hid, hdup, hdh, hh, hdd]
              · exfalso
                apply herr
                simp [Registry.register, hid, hdup, hdh, hh, hdd]
  exact ⟨hstate, fun id => by rw [hstate], fun h => by rw [hstate], by rw [hstate]⟩

/-- Witness for `register_atomic_on_failure`: a duplicate-ID registration
against a one-session registry errors and leaves the registry unchanged. -/
theorem register_atomic_on_failure_witness :
    ((⟨[("a".toList, ⟨"a".toList, some "h1".toList⟩)],
        [("h1".toList, "a".toList)]⟩ : Registry).register
      (some ⟨"a".toList, some "h2".toList⟩)).2 ≠ none
    ∧ ((⟨[("a".toList, ⟨"a".toList, some "h1".toList⟩)],
        [("h1".toList, "a".toList)]⟩ : Registry).register
      (some ⟨"a".toList, some "h2".toList⟩)).1
      = ⟨[("a".toList, ⟨"a".toList, some "h1".toList⟩)],
          [("h1".toList, "a".toList)]⟩ :=
  ⟨by decide,
    (register_atomic_on_failure
      ⟨[("a".toList, ⟨"a".toList, some "h1".toList⟩)], [("h1".toList, "a".toList)]⟩
      (some ⟨"a".toList, some "h2".toList⟩) (by decide)).1⟩

/-- C6 counterexample. Destroying a nickname that is not registered does
NOT succeed without error: a second destroy of nickname `a` (registered,
then destroyed once) returns the session-not-found error, and so does a
destroy on the empty registry.  This refutes the claim that a destroy of an
unregistered nickname "succeeds as a no-op without error". -/
theorem unregister_not_errorfree_counterexample :
    (newRegistry.unregister "a".toList).2 = some RegErr.sessionNotFound
    ∧ (((newRegistry.register (some ⟨"a".toList, some "h1".toList⟩)).1.unregister
        "a".toList).1.unregister "a".toList).2 = some RegErr.sessionNotFound := by
  decide

/-- C6 amended. Destroying an unregistered nickname (in particular a second
destroy of the same nickname) leaves both tables unchanged — a state-level
no-op — but returns the session-not-found error rather than succeeding;
after a destroy of a registered session neither the nickname table nor the
destination-hash table retains an entry for that session. -/
theorem unregister_noop_but_errors
    (r : Registry) (id : Str) :
    (r.sessions.lookup id = none →
      r.unregister id = (r, some RegErr.sessionNotFound))
    ∧ (∀ s, r.sessions.lookup id = some s →
        (r.unregister id).2 = none
        ∧ ((r.unregister id).1).get id = none
        ∧ (∀ h, s.destHash = some h → h ≠ [] →
            ((r.unregister id).1).dests.lookup h = none)) := by
  constructor
  · intro hmiss
    simp [Registry.unregister, hmiss]
  · intro s hfind
    refine ⟨?_, ?_, ?_⟩
    · simp [Registry.unregister, hfind]
    · simp only [Registry.unregister, hfind, Registry.get]
      exact lookup_filter_ne _ id
    · intro h hdh hh
      simp only [Registry.unregister, hfind, hdh]
      rw [if_pos hh]
      exact lookup_filter_ne _ h

/-- Witness for `unregister_noop_but_errors`: both branches at concrete
registries — a destroy on the empty registry is a state no-op returning the
error, and a destroy of the registered session `a` clears both tables. -/
theorem unregister_noop_but_errors_witness :
    (newRegistry.unregister "a".toList = (newRegistry, some RegErr.sessionNotFound))
    ∧ (((⟨[("a".toList, ⟨"a".toList, some "h1".toList⟩)],
          [("h1".toList, "a".toList)]⟩ : Registry).unregister "a".toList).2 = none
        ∧ ((⟨[("a".toList, ⟨"a".toList, some "h1".toList⟩)],
            [("h1".toList, "a".toList)]⟩ : Registry).unregister "a".toList).1.get
            "a".toList = none) := by
  refine ⟨(unregister_noop_but_errors newRegistry "a".toList).1 rfl, ?_, ?_⟩
  · exact (((unregister_noop_but_errors
      ⟨[("a".toList, ⟨"a".toList, some "h1".toList⟩)], [("h1".toList, "a".toList)]⟩
      "a".toList).2 ⟨"a".toList, some "h1".toList⟩ rfl)).1
  · exact (((unregister_noop_but_errors
      ⟨[("a".toList, ⟨"a".toList, some "h1".toList⟩)], [("h1".toList, "a".toList)]⟩
      "a".toList).2 ⟨"a".toList, some "h1".toList⟩ rfl)).2.1

/-! ## lib/session/base.go: session lifecycle -/

/-- `session.Status` (`CREATING/ACTIVE/CLOSING/CLOSED` per the session
package; used by `lib/session/base.go`). -/
inductive Status where
  | creating
  | active
  | closing
  | closed
  deriving Repr, DecidableEq

/-- A closable resource handle (the I2CP session handle or the control
connection): `closeErr` is the error its `Close()` call would report,
`none` for a successful close. -/
structure Handle where
  closeErr : Option Str
  deriving Repr, DecidableEq

/-- The state of a `session.BaseSession` relevant to `Close`: the status,
the optional I2CP session handle and the optional control connection. -/
structure BaseSession where
  status : Status
  i2cpSession : Option Handle
  controlConn : Option Handle
  deriving Repr, DecidableEq

/-- `BaseSession.Close` (`lib/session/base.go`): a session already Closed or
Closing is left untouched and no error is reported; otherwise the I2CP
handle and then the control connection are closed and cleared, errors are
collected, the status becomes Closed, and the first error (if any) is
returned. -/
def BaseSession.close (b : BaseSession) : BaseSession × Option Str :=
  if b.status = .closed ∨ b.status = .closing then (b, none)
  else
    let errs1 : List Str :=
      match b.i2cpSession with
      | some h => match h.closeErr with | some e => [e] | none => []
      | none => []
    let errs2 : List Str :=
      match b.controlConn with
      | some c => match c.closeErr with | some e => errs1 ++ [e] | none => errs1
      | none => errs1
    ({ status := .closed, i2cpSession := none, controlConn := none }, errs2.head?)

/-- C5. Session Close is idempotent: a second Close (and any Close of a
session already Closing or Closed) performs no state change or resource
release and returns no error; a Close of a session not already mid-close
leaves the status Closed. -/
theorem close_idempotent (b : BaseSession) :
    (b.close.1).close = (b.close.1, none)
    ∧ (b.status = .closed ∨ b.status = .closing → b.close = (b, none))
    ∧ (b.status ≠ .closing → (b.close.1).status = .closed) := by
  refine ⟨?_, ?_, ?_⟩
  · by_cases h : b.status = .closed ∨ b.status = .closing
    · have hb : b.close = (b, none) := by rw [BaseSession.close, if_pos h]
      rw [hb]
      exact hb
    · have hb : b.close.1 = ⟨.closed, none, none⟩ := by
        rw [BaseSession.close, if_neg h]
      rw [hb]
      rfl
  · intro h
    rw [BaseSession.close, if_pos h]
  · intro h
    by_cases hc : b.status = .closed
    · rw [BaseSession.close, if_pos (Or.inl hc)]
      exact hc
    · rw [BaseSession.close, if_neg (by tauto)]

/-- Witness for `close_idempotent`: an Active session with both handles set
closes to Closed; the second Close changes nothing and returns no error. -/
theorem close_idempotent_witness :
    ((⟨Status.active, some ⟨none⟩, some ⟨none⟩⟩ : BaseSession).status ≠ Status.closing)
    ∧ ((⟨Status.active, some ⟨none⟩, some ⟨none⟩⟩ : BaseSession).close.1).close
        = ((⟨Status.active, some ⟨none⟩, some ⟨none⟩⟩ : BaseSession).close.1, none)
    ∧ ((⟨Status.active, some ⟨none⟩, some ⟨none⟩⟩ : BaseSession).close.1).status
        = Status.closed :=
  ⟨by decide,
    (close_idempotent ⟨Status.active, some ⟨none⟩, some ⟨none⟩⟩).1,
    (close_idempotent ⟨Status.active, some ⟨none⟩, some ⟨none⟩⟩).2.2 (by decide)⟩

/-! ## lib/session: destination hash

`Destination.Hash` is declared in the session package README ("hex-encoded
string ... first 32 bytes of the public key") but its implementation file is
absent from the sources; its behaviour is pinned exactly by
`TestDestination_Hash` in `lib/session/session_test.go`.  Go strings are
byte sequences here, so both the key material and the hash are modelled as
`List Nat` byte lists.
-/

/-- Lowercase hex digit of a value below 16 (ASCII code). -/
def hexDigit (n : Nat) : Nat := if n < 10 then 48 + n else 87 + n

/-- `encoding/hex`-style encoding: two lowercase hex digits per byte. -/
def hexEncode (bytes : List Nat) : List Nat :=
  bytes.flatMap (fun b => [hexDigit (b / 16), hexDigit (b % 16)])

/-- Modelled from the spec: `Destination.Hash` as the specification and the
session README document it — the hex encoding of the first 32 bytes of the
destination's public-key material (empty for an empty key).  The
implementation file is absent from the sources; this definition follows the
spec's words so it can be compared with the behaviour the package's own
test `TestDestination_Hash` demands. -/
def destinationHashSpec (publicKey : List Nat) : List Nat :=
  if publicKey = [] then [] else hexEncode (publicKey.take 32)

/-- `Destination.Hash` as pinned by `TestDestination_Hash`
(`lib/session/session_test.go`): the empty key hashes to the empty string,
the 8-byte key `"shortkey"` hashes to the string `"shortkey"` itself, and a
64-byte key hashes to a string of length 32 — i.e. the raw first-32-byte
prefix of the key, with no hex encoding. -/
def destinationHashImpl (publicKey : List Nat) : List Nat :=
  if publicKey = [] then [] else publicKey.take 32

/-- The ASCII bytes of `"shortkey"`, the short-key input of
`TestDestination_Hash`. -/
def shortkeyBytes : List Nat := [115, 104, 111, 114, 116, 107, 101, 121]

/-- The 64-byte key `0,1,...,63` used by `TestDestination_Hash`. -/
def longKeyBytes : List Nat := List.range 64

/-- C3 (code bug). At the repository's own test inputs the documented hash
(hex encoding of the first 32 bytes, a 64-character string for a ≥ 32-byte
key) disagrees with the behaviour `TestDestination_Hash` demands of the
code: the test requires `Hash` of the 64-byte key to have length 32 (the
raw 32-byte prefix) and `Hash("shortkey") = "shortkey"`, while the spec
hash of the 64-byte key has length 64 and the spec hash of `"shortkey"` is
its 16-character hex form. -/
theorem destination_hash_code_divergence :
    destinationHashImpl longKeyBytes = List.range 32
    ∧ (destinationHashImpl longKeyBytes).length = 32
    ∧ destinationHashImpl shortkeyBytes = shortkeyBytes
    ∧ (destinationHashSpec longKeyBytes).length = 64
    ∧ destinationHashSpec longKeyBytes ≠ destinationHashImpl longKeyBytes
    ∧ destinationHashSpec shortkeyBytes ≠ shortkeyBytes := by
  decide

/-! ## lib/session: primary-session routing

`PrimarySessionImpl.RouteIncoming` is declared in the session package README
but its implementation file is absent from the sources; the routing rules
are modelled from the README's godoc and §4.7 of the specification.
-/

/-- Subsession styles a PRIMARY session can host (never PRIMARY itself). -/
inductive SubStyle where
  | stream
  | datagram
  | raw
  | datagram2
  | datagram3
  deriving Repr, DecidableEq

/-- Modelled from the spec: the routing state of a
`session.PrimarySessionImpl` (implementation absent from the sources) — the
subsession style table and the `(listen_port, listen_protocol) → nickname`
routes table. -/
structure PrimarySession where
  subsessions : List (Str × SubStyle)
  routes : List ((Nat × Nat) × Str)
  deriving Repr, DecidableEq

/-- Style of a subsession by nickname, if registered. -/
def PrimarySession.subStyle (p : PrimarySession) (id : Str) : Option SubStyle :=
  p.subsessions.lookup id

/-- Modelled from the spec: a routes entry may be selected unless the
traffic is streaming (protocol 6) and the subsession is RAW ("Streaming
traffic (protocol 6) never routes to RAW subsessions"). -/
def routeAcceptable (p : PrimarySession) (protocol : Nat) (id : Str) : Bool :=
  !(protocol == 6 && (p.subStyle id == some SubStyle.raw))

/-- Modelled from the spec: try the given route keys in order and return
the first acceptably-matching nickname, or the empty string (drop). -/
def routeFirst (p : PrimarySession) (protocol : Nat) : List (Nat × Nat) → Str
  | [] => []
  | k :: ks =>
    match p.routes.lookup k with
    | some id => if routeAcceptable p protocol id then id else routeFirst p protocol ks
    | none => routeFirst p protocol ks

/-- Modelled from the spec: `PrimarySessionImpl.RouteIncoming`
(implementation absent from the sources; rules per the session README) —
exact `(port, protocol)`, then wildcard `(port, 0)`, then `(0, protocol)`,
then the default `(0, 0)`, else the empty string meaning the data is
dropped. -/
def routeIncoming (p : PrimarySession) (port protocol : Nat) : Str :=
  routeFirst p protocol [(port, protocol), (port, 0), (0, protocol), (0, 0)]

/-- Streaming traffic never selects a RAW subsession, whichever rule fires. -/
theorem routeFirst_never_raw (p : PrimarySession) (ks : List (Nat × Nat)) :
    ∀ id, id ≠ [] → routeFirst p 6 ks = id → p.subStyle id ≠ some SubStyle.raw := by
  induction ks with
  | nil =>
    intro id hne h
    exact absurd h.symm hne
  | cons k ks ih =>
    intro id hne h
    rw [routeFirst] at h
    cases hl : p.routes.lookup k with
    | none =>
      rw [hl] at h
      exact ih id hne h
    | some id' =>
      rw [hl] at h
      dsimp only at h
      by_cases hacc : routeAcceptable p 6 id' = true
      · rw [if_pos hacc] at h
        subst h
        simp only [routeAcceptable, Bool.not_eq_true', Bool.and_eq_false_iff] at hacc
        rcases hacc with hacc | hacc
        · simp at hacc
        · simpa using hacc
      · rw [if_neg hacc] at h
        exact ih id hne h

/-- C4. Routing by `(port, protocol)` tries exact `(port, protocol)`, then
`(port, 0)`, then `(0, protocol)`, then the default `(0, 0)`, and drops the
message (empty nickname) when no rule has an entry; the result is unique,
an exact acceptable match always beats the wildcards, and streaming traffic
(protocol 6) never selects a RAW subsession even via a wildcard match. -/
theorem route_incoming_rules (p : PrimarySession) (port protocol : Nat) :
    (∀ id₁ id₂, routeIncoming p port protocol = id₁ →
      routeIncoming p port protocol = id₂ → id₁ = id₂)
    ∧ (∀ id, p.routes.lookup (port, protocol) = some id →
        routeAcceptable p protocol id = true → routeIncoming p port protocol = id)
    ∧ (∀ id, id ≠ [] → routeIncoming p port 6 = id →
        p.subStyle id ≠ some SubStyle.raw)
    ∧ (p.routes.lookup (port, protocol) = none →
        p.routes.lookup (port, 0) = none →
        p.routes.lookup (0, protocol) = none →
        p.routes.lookup (0, 0) = none →
        routeIncoming p port protocol = []) := by
  refine ⟨?_, ?_, ?_, ?_⟩
  · intro id₁ id₂ h₁ h₂
    rw [← h₁, ← h₂]
  · intro id hlook hacc
    rw [routeIncoming, routeFirst, hlook]
    dsimp only
    rw [if_pos hacc]
  · exact routeFirst_never_raw p _
  · intro h₁ h₂ h₃ h₄
    rw [routeIncoming, routeFirst, h₁, routeFirst, h₂, routeFirst, h₃,
      routeFirst, h₄, routeFirst]

/-- Witness for `route_incoming_rules` on a concrete primary session with a
default STREAM subsession, a RAW subsession on `(0, 18)` and a DATAGRAM
subsession on `(700, 17)`: the exact rule wins on `(700, 17)`, protocol 6
falls through to the default rather than RAW, and an unmatched protocol-6
lookup drops when the tables are empty. -/
theorem route_incoming_rules_witness :
    (⟨[("s".toList, SubStyle.stream), ("r".toList, SubStyle.raw),
        ("d".toList, SubStyle.datagram)],
      [((700, 17), "d".toList), ((0, 18), "r".toList), ((0, 0), "s".toList)]⟩ :
        PrimarySession).routes.lookup (700, 17) = some "d".toList
    ∧ routeAcceptable
        ⟨[("s".toList, SubStyle.stream), ("r".toList, SubStyle.raw),
          ("d".toList, SubStyle.datagram)],
        [((700, 17), "d".toList), ((0, 18), "r".toList), ((0, 0), "s".toList)]⟩
        17 "d".toList = true
    ∧ routeIncoming
        ⟨[("s".toList, SubStyle.stream), ("r".toList, SubStyle.raw),
          ("d".toList, SubStyle.datagram)],
        [((700, 17), "d".toList), ((0, 18), "r".toList), ((0, 0), "s".toList)]⟩
        700 17 = "d".toList
    ∧ ("s".toList : Str) ≠ []
    ∧ routeIncoming
        ⟨[("s".toList, SubStyle.stream), ("r".toList, SubStyle.raw),
          ("d".toList, SubStyle.datagram)],
        [((700, 17), "d".toList), ((0, 18), "r".toList), ((0, 0), "s".toList)]⟩
        0 6 = "s".toList
    ∧ (⟨[("s".toList, SubStyle.stream), ("r".toList, SubStyle.raw),
          ("d".toList, SubStyle.datagram)],
        [((700, 17), "d".toList), ((0, 18), "r".toList), ((0, 0), "s".toList)]⟩ :
          PrimarySession).subStyle "s".toList ≠ some SubStyle.raw
    ∧ routeIncoming (⟨[], []⟩ : PrimarySession) 700 6 = [] := by
  refine ⟨by decide, by decide, ?_, by decide, by decide, ?_, ?_⟩
  · exact (route_incoming_rules
      ⟨[("s".toList, SubStyle.stream), ("r".toList, SubStyle.raw),
        ("d".toList, SubStyle.datagram)],
      [((700, 17), "d".toList), ((0, 18), "r".toList), ((0, 0), "s".toList)]⟩
      700 17).2.1 "d".toList (by decide) (by decide)
  · exact (route_incoming_rules
      ⟨[("s".toList, SubStyle.stream), ("r".toList, SubStyle.raw),
        ("d".toList, SubStyle.datagram)],
      [((700, 17), "d".toList), ((0, 18), "r".toList), ((0, 0), "s".toList)]⟩
      0 6).2.2.1 "s".toList (by decide) (by decide)
  · exact (route_incoming_rules (⟨[], []⟩ : PrimarySession) 700 6).2.2.2
      rfl rfl rfl rfl

/-! ## lib/protocol/parser.go: the line parser

Translation of `Parser.Parse`, `Parser.tokenize`, `parseKeyValue`,
`stripQuotes` and `isAction` with the default case-insensitive settings.
Go iterates over bytes; lines are modelled as character lists (every
character the parser inspects is ASCII).  Lean strings are always valid
UTF-8, so the `utf8.ValidString` guard of `Parse` is identically true in
the model.
-/

/-- Parser errors (`lib/protocol/parser.go`).  `invalidEscape` is declared
by the Go code but, like there, never produced. -/
inductive ParseErr where
  | emptyCommand
  | invalidUTF8
  | unterminatedQuote
  | invalidEscape
  deriving Repr, DecidableEq

/-- The loop of `Parser.tokenize`: state is the accumulated tokens, the
current token, the in-quote flag and the escaped flag.  Escape handling per
SAM 3.2: after a backslash inside quotes, `"` and `\` are unescaped and any
other character keeps the backslash in front ("Invalid escape - include
backslash and character"); quotes are kept in the token; unquoted space and
tab end a token; an open quote at end of line is an unterminated-quote
error. -/
def tokenizeGo : List Char → List Str → Str → Bool → Bool → Except ParseErr (List Str)
  | [], tokens, current, inQuote, _ =>
    if inQuote then .error .unterminatedQuote
    else if current ≠ [] then .ok (tokens ++ [current]) else .ok tokens
  | ch :: rest, tokens, current, inQuote, escaped =>
    if escaped then
      if ch = '"' ∨ ch = '\\' then tokenizeGo rest tokens (current ++ [ch]) inQuote false
      else tokenizeGo rest tokens (current ++ ['\\', ch]) inQuote false
    else if ch = '\\' then
      if inQuote then tokenizeGo rest tokens current inQuote true
      else tokenizeGo rest tokens (current ++ [ch]) inQuote false
    else if ch = '"' then
      tokenizeGo rest tokens (current ++ [ch]) (!inQuote) escaped
    else if ch = ' ' ∨ ch = '\t' then
      if inQuote then tokenizeGo rest tokens (current ++ [ch]) inQuote escaped
      else if current ≠ [] then tokenizeGo rest (tokens ++ [current]) [] inQuote escaped
      else tokenizeGo rest tokens current inQuote escaped
    else tokenizeGo rest tokens (current ++ [ch]) inQuote escaped

/-- `Parser.tokenize` (`lib/protocol/parser.go`). -/
def tokenize (line : Str) : Except ParseErr (List Str) :=
  tokenizeGo line [] [] false false

/-- The loop of `strings.ReplaceAll`, structurally recursive on a fuel
bound (one unit of fuel consumes at least one character, so string length
as fuel is exact): replace non-overlapping occurrences left to right. -/
def replaceAllGo : Nat → Str → Str → Str → Str
  | _, _, _, [] => []
  | 0, _, _, s => s
  | fuel + 1, pat, rep, c :: rest =>
    if pat ≠ [] ∧ pat.isPrefixOf (c :: rest) = true then
      rep ++ replaceAllGo fuel pat rep ((c :: rest).drop pat.length)
    else c :: replaceAllGo fuel pat rep rest

/-- `strings.ReplaceAll` for a nonempty pattern. -/
def replaceAll (pat rep s : Str) : Str := replaceAllGo s.length pat rep s

/-- `stripQuotes` (`lib/protocol/parser.go`): remove surrounding double
quotes and unescape `\"` then `\\`. -/
def stripQuotes (s : Str) : Str :=
  if s.length ≥ 2 ∧ s.head? = some '"' ∧ s.getLast? = some '"' then
    replaceAll ['\\', '\\'] ['\\'] (replaceAll ['\\', '"'] ['"'] ((s.drop 1).dropLast))
  else s

/-- The scan of `parseKeyValue` for the first `'='` outside quotes. -/
def findEq : List Char → Bool → Nat → Option Nat
  | [], _, _ => none
  | c :: rest, inQuote, i =>
    if c = '"' then findEq rest (!inQuote) (i + 1)
    else if c = '=' ∧ inQuote = false then some i
    else findEq rest inQuote (i + 1)

/-- `parseKeyValue` (`lib/protocol/parser.go`): split at the first
unquoted `'='`; a token without one is a bare key with empty value; the
value is unquoted via `stripQuotes`. -/
def parseKeyValue (token : Str) : Str × Str :=
  match findEq token false 0 with
  | none => (token, [])
  | some i => (token.take i, stripQuotes (token.drop (i + 1)))

/-- `Parser.isAction` (`lib/protocol/parser.go`): the fixed verb/action
table; PING, PONG, QUIT, STOP, EXIT and HELP never take an action; unknown
verbs treat any `=`-free token as an action. -/
def isActionTok (verb token : Str) : Bool :=
  let v := toUpperStr verb
  let t := toUpperStr token
  if v = "HELLO".toList then t = "VERSION".toList
  else if v = "SESSION".toList then
    t = "CREATE".toList ∨ t = "ADD".toList ∨ t = "REMOVE".toList
  else if v = "STREAM".toList then
    t = "CONNECT".toList ∨ t = "ACCEPT".toList ∨ t = "FORWARD".toList
  else if v = "DATAGRAM".toList ∨ v = "RAW".toList then
    t = "SEND".toList ∨ t = "RECEIVED".toList
  else if v = "DEST".toList then t = "GENERATE".toList ∨ t = "REPLY".toList
  else if v = "NAMING".toList then t = "LOOKUP".toList
  else if v = "AUTH".toList then
    t = "ENABLE".toList ∨ t = "DISABLE".toList ∨ t = "ADD".toList
      ∨ t = "REMOVE".toList
  else if v = "PING".toList ∨ v = "PONG".toList ∨ v = "QUIT".toList
      ∨ v = "STOP".toList ∨ v = "EXIT".toList ∨ v = "HELP".toList then
    false
  else !containsChar token '='

/-- `Parser.Parse` (`lib/protocol/parser.go`, case-insensitive defaults):
trim trailing CR/LF, tokenize, first token is the verb (uppercased), an
`=`-free second token is the action when `isAction` agrees, and the
remaining tokens become options (empty keys dropped; later duplicates win
via the front of the association list).  `Raw` keeps the trimmed line. -/
def parse (line : Str) : Except ParseErr Command :=
  let line := trimRightCRLF line
  let raw := line
  match tokenize line with
  | .error e => .error e
  | .ok tokens =>
    match tokens with
    | [] => .error .emptyCommand
    | t0 :: rest =>
      let verb := toUpperStr t0
      let (action, optToks) :=
        match rest with
        | t1 :: rest' =>
          if !containsChar t1 '=' && isActionTok verb t1 then (toUpperStr t1, rest')
          else (([] : Str), rest)
        | [] => (([] : Str), [])
      let options := optToks.foldl (fun acc tok =>
        let kv := parseKeyValue tok
        if kv.1 ≠ [] then kv :: acc else acc) []
      .ok ⟨verb, action, options, raw⟩

/-! ## lib/handler/ping.go: the PING handler -/

/-- `strings.Index` helper: position of the first occurrence of `sub`. -/
def goIndexAux (sub : Str) : Str → Nat → Option Nat
  | [], i => if sub.isPrefixOf [] then some i else none
  | c :: r, i => if sub.isPrefixOf (c :: r) then some i else goIndexAux sub r (i + 1)

/-- `strings.Index(s, sub)`, as an `Option` instead of `-1`. -/
def goIndex (s sub : Str) : Option Nat := goIndexAux sub s 0

/-- `extractPingText` (`lib/handler/ping.go`): find "PING" in the
uppercased raw line, skip it and one optional space, return the rest. -/
def extractPingText (raw : Str) : Str :=
  match goIndex (toUpperStr raw) "PING".toList with
  | none => []
  | some idx =>
    match raw.drop (idx + 4) with
    | c :: r => if c = ' ' then r else c :: r
    | [] => []

/-- `buildPongResponse` (`lib/handler/ping.go`): a `PONG` response whose
sole option is the raw echoed text (appended without quoting). -/
def buildPongResponse (text : Str) : Response :=
  if text = [] then newResponse "PONG".toList
  else { newResponse "PONG".toList with options := [text] }

/-- `PingHandler.Handle` (`lib/handler/ping.go`): echo the text after PING. -/
def pingHandle (cmd : Command) : Response :=
  buildPongResponse (extractPingText cmd.raw)

/-- The server's PING path as determined by the sources: the line is parsed
(`Parser.Parse`) and a command whose verb is `PING` is dispatched to
`PingHandler.Handle` (per `RegisterPingHandler` and `Router.Route`), whose
response line is written back.  `none` models "no PONG reply": either the
parse failed or the command went to a different handler. -/
def pingServerReply (line : Str) : Option Str :=
  match parse line with
  | .error _ => none
  | .ok cmd =>
    if cmd.verb = "PING".toList then some (pingHandle cmd).string else none

/-! ## Claim theorems: parser escapes -/

/-- C7 counterexample. A double-quoted value containing the two-character
sequence `\n` does NOT make the line parser fail: `TEST KEY="a\nb"` parses
into a command whose `KEY` option keeps the backslash and the `n`
literally, refuting the claim that such inputs yield a BadSyntax error. -/
theorem parser_invalid_escape_counterexample :
    parse ("TEST KEY=\"a\\nb\"".toList)
      = Except.ok ⟨"TEST".toList, [], [("KEY".toList, "a\\nb".toList)],
          "TEST KEY=\"a\\nb\"".toList⟩ := by
  decide

/-- C7 amended. Inside a double-quoted value, a backslash followed by any
character other than `"` or `\` is accepted rather than rejected: the
tokenizer keeps the backslash and the character literally in the token and
reports no error. -/
theorem tokenize_preserves_invalid_escape (c : Char)
    (h1 : c ≠ '"') (h2 : c ≠ '\\') :
    tokenize ("KEY=\"a\\".toList ++ c :: "b\"".toList)
      = Except.ok ["KEY=\"a\\".toList ++ c :: "b\"".toList] := by
  simp [tokenize, tokenizeGo, h1, h2]

/-- Witness for `tokenize_preserves_invalid_escape` at `c = 'n'` (the `\n`
sequence of the claim). -/
theorem tokenize_preserves_invalid_escape_witness :
    ('n' ≠ '"') ∧ ('n' ≠ '\\')
    ∧ tokenize ("KEY=\"a\\".toList ++ 'n' :: "b\"".toList)
        = Except.ok ["KEY=\"a\\".toList ++ 'n' :: "b\"".toList] :=
  ⟨by decide, by decide,
    tokenize_preserves_invalid_escape 'n' (by decide) (by decide)⟩

/-! ## Claim theorems: PING echo

Helper lemmas about the tokenizer's accumulator, trimming and the PING
text extraction, followed by the claim itself.
-/

/-- The tokenizer's token accumulator only prepends: running with initial
tokens `toks` prepends `toks` to the result of running with none. -/
theorem tokenizeGo_append (cs : List Char) :
    ∀ toks cur q esc, tokenizeGo cs toks cur q esc
      = (tokenizeGo cs [] cur q esc).map (fun ts => toks ++ ts) := by
  induction cs with
  | nil =>
    intro toks cur q esc
    rw [tokenizeGo]
    conv_rhs => rw [tokenizeGo]
    by_cases hq : q = true
    · simp [hq, Except.map]
    · simp only [Bool.not_eq_true] at hq
      subst hq
      by_cases hc : cur = []
      · simp [hc, Except.map]
      · simp [hc, Except.map]
  | cons ch rest ih =>
    intro toks cur q esc
    rw [tokenizeGo]
    conv_rhs => rw [tokenizeGo]
    by_cases hesc : esc = true
    · rw [if_pos hesc, if_pos hesc]
      by_cases hch : ch = '"' ∨ ch = '\\'
      · rw [if_pos hch, if_pos hch]
        exact ih toks (cur ++ [ch]) q false
      · rw [if_neg hch, if_neg hch]
        exact ih toks (cur ++ ['\\', ch]) q false
    · rw [if_neg hesc, if_neg hesc]
      by_cases hbs : ch = '\\'
      · rw [if_pos hbs, if_pos hbs]
        by_cases hq : q = true
        · rw [if_pos hq, if_pos hq]
          exact ih toks cur q true
        · rw [if_neg hq, if_neg hq]
          exact ih toks (cur ++ [ch]) q false
      · rw [if_neg hbs, if_neg hbs]
        by_cases hdq : ch = '"'
        · rw [if_pos hdq, if_pos hdq]
          exact ih toks (cur ++ [ch]) (!q) esc
        · rw [if_neg hdq, if_neg hdq]
          by_cases hsp : ch = ' ' ∨ ch = '\t'
          · rw [if_pos hsp, if_pos hsp]
            by_cases hq : q = true
            · rw [if_pos hq, if_pos hq]
              exact ih toks (cur ++ [ch]) q esc
            · rw [if_neg hq, if_neg hq]
              by_cases hc : cur ≠ []
              · rw [if_pos hc, if_pos hc]
                rw [ih (toks ++ [cur]) [] q esc, ih ([] ++ [cur]) [] q esc]
                cases hX : tokenizeGo rest [] [] q esc <;> simp [Except.map]
              · rw [if_neg hc, if_neg hc]
                exact ih toks cur q esc
          · rw [if_neg hsp, if_neg hsp]
            exact ih toks (cur ++ [ch]) q esc

/-- Tokenizing `PING <t>` flushes the verb token and continues on `t`. -/
theorem tokenize_ping_head (t : Str) :
    tokenize ("PING ".toList ++ t)
      = (tokenizeGo t [] [] false false).map (fun ts => "PING".toList :: ts) := by
  have h5 : tokenize ("PING ".toList ++ t)
      = tokenizeGo t ["PING".toList] [] false false := rfl
  rw [h5, tokenizeGo_append t ["PING".toList] [] false false]
  rfl

/-- Trimming is the identity on lines without CR or LF characters. -/
theorem trimRightCRLF_eq_self (s : Str) (h : ∀ c ∈ s, isCRLF c = false) :
    trimRightCRLF s = s := by
  unfold trimRightCRLF
  have hd : s.reverse.dropWhile isCRLF = s.reverse := by
    cases hr : s.reverse with
    | nil => rfl
    | cons a as =>
      have ha : a ∈ s := by
        rw [← List.mem_reverse, hr]
        exact List.mem_cons_self a as
      rw [List.dropWhile_cons, h a ha]
      simp
  rw [hd, List.reverse_reverse]

/-- `extractPingText` recovers the tail of a `PING <t>` line exactly. -/
theorem extractPingText_tail (t : Str) :
    extractPingText ("PING ".toList ++ t) = t := by
  unfold extractPingText
  have hup : toUpperStr ("PING ".toList ++ t) = "PING ".toList ++ toUpperStr t := by
    unfold toUpperStr
    rw [List.map_append]
    congr 1
  have hidx : goIndex ("PING ".toList ++ toUpperStr t) "PING".toList = some 0 := by
    show goIndexAux ("PING".toList) ('P' :: 'I' :: 'N' :: 'G' :: ' ' :: toUpperStr t) 0
      = some 0
    rw [goIndexAux, if_pos (by simp [List.isPrefixOf])]
  rw [hup, hidx]
  show (match ("PING ".toList ++ t).drop (0 + 4) with
    | c :: r => if c = ' ' then r else c :: r
    | [] => []) = t
  have hdrop : ("PING ".toList ++ t).drop (0 + 4) = ' ' :: t := rfl
  rw [hdrop]
  simp

/-- PING takes no action, whatever the second token is. -/
theorem isActionTok_ping (tok : Str) :
    isActionTok (toUpperStr ("PING".toList)) tok = false := by
  have hv : toUpperStr (toUpperStr ("PING".toList)) = "PING".toList := by decide
  simp only [isActionTok]
  rw [hv]
  simp

/-- The characters of `PING ` are not CR or LF. -/
theorem pingPrefix_no_crlf : ∀ c ∈ ("PING ".toList : Str), isCRLF c = false := by
  decide

/-- Parsing an accepted `PING <t>` line yields a PING command carrying the
whole trimmed line in `Raw`. -/
theorem parse_ping_ok (t : Str) (hcr : ∀ c ∈ t, isCRLF c = false)
    (ts : List Str) (hg : tokenizeGo t [] [] false false = .ok ts) :
    ∃ opts, parse ("PING ".toList ++ t)
      = .ok ⟨toUpperStr ("PING".toList), [], opts, "PING ".toList ++ t⟩ := by
  have hline : trimRightCRLF ("PING ".toList ++ t) = "PING ".toList ++ t := by
    apply trimRightCRLF_eq_self
    intro c hc
    rcases List.mem_append.mp hc with hc | hc
    · exact pingPrefix_no_crlf c hc
    · exact hcr c hc
  have htk : tokenize ("PING ".toList ++ t) = .ok ("PING".toList :: ts) := by
    rw [tokenize_ping_head, hg]
    rfl
  unfold parse
  rw [hline]
  dsimp only
  rw [htk]
  cases ts with
  | nil => exact ⟨[], rfl⟩
  | cons t1 rest' =>
    dsimp only
    rw [isActionTok_ping t1, Bool.and_false]
    exact ⟨_, rfl⟩

/-- The PONG response line for a nonempty echo text. -/
theorem pong_string (t : Str) (h : t ≠ []) :
    (buildPongResponse t).string = "PONG ".toList ++ t ++ ['\n'] := by
  unfold buildPongResponse
  rw [if_neg h]
  simp [Response.string, newResponse, joinSpace]

/-- C9 counterexample. A PING line whose trailing text is a lone double
quote is rejected by the line parser (unterminated quote), so the server
produces no PONG at all — refuting the claim for arbitrary tails
"possibly containing quotes". -/
theorem ping_quote_counterexample :
    parse ("PING \"".toList) = Except.error ParseErr.unterminatedQuote
    ∧ pingServerReply ("PING \"".toList) = none := by
  decide

/-- C9 amended. For every PING line the line parser accepts (trailing text
without CR/LF that tokenizes, e.g. balanced quotes), the reply is exactly
`PONG` for an empty tail and `PONG ` followed by the tail unmodified — no
quoting, no normalization — terminated by a newline. -/
theorem ping_pong_echoes_tail (t : Str) (hne : t ≠ [])
    (hcr : ∀ c ∈ t, isCRLF c = false)
    (htok : (tokenize ("PING ".toList ++ t)).isOk = true) :
    pingServerReply ("PING".toList) = some ("PONG\n".toList)
    ∧ pingServerReply ("PING ".toList ++ t)
        = some ("PONG ".toList ++ t ++ ['\n']) := by
  refine ⟨by decide, ?_⟩
  cases hg : tokenizeGo t [] [] false false with
  | error e =>
    rw [tokenize_ping_head, hg] at htok
    simp [Except.map, Except.isOk, Except.toBool] at htok
  | ok ts =>
    obtain ⟨opts, hp⟩ := parse_ping_ok t hcr ts hg
    unfold pingServerReply
    rw [hp]
    have hv : toUpperStr ("PING".toList) = "PING".toList := by decide
    dsimp only
    rw [hv]
    rw [if_pos rfl]
    unfold pingHandle
    dsimp only
    rw [extractPingText_tail, pong_string t hne]

/-- Witness for `ping_pong_echoes_tail` at the spec's scenario S4 tail
`keepalive with spaces`. -/
theorem ping_pong_echoes_tail_witness :
    (("keepalive with spaces".toList : Str) ≠ []
      ∧ (∀ c ∈ ("keepalive with spaces".toList : Str), isCRLF c = false)
      ∧ (tokenize ("PING ".toList ++ "keepalive with spaces".toList)).isOk = true)
    ∧ pingServerReply ("PING ".toList ++ "keepalive with spaces".toList)
        = some ("PONG ".toList ++ "keepalive with spaces".toList ++ ['\n']) :=
  ⟨⟨by decide, by decide, by decide⟩,
    (ping_pong_echoes_tail "keepalive with spaces".toList (by decide) (by decide)
      (by decide)).2⟩

end SamBridge
